import Mathlib

/-!
Verification development for the WrestleStat NCAA D1 wrestling scraper
(`scraper.py`).  The scraper's pure computation is shallowly embedded:
HTML documents are modelled by the data the code actually inspects
(anchor hrefs/texts, table cells), page fetches are modelled as
`Except`-valued functions supplied by a `Web` environment, and pandas
DataFrames are modelled as Lean lists of record structures.  Python
string operations (strip, split, the two name regexes, int()) are
modelled character by character from their documented semantics.
-/

/-! ## Python string semantics -/

/-- Python's `\s` / `str.strip()` whitespace class, ASCII part:
space, tab, newline, carriage return, vertical tab, form feed. -/
def isSpaceChar (c : Char) : Bool :=
  c = ' ' || c = '\t' || c = '\n' || c = '\r' || c = '\x0b' || c = '\x0c'

/-- `str.strip()` with no argument: drop whitespace from both ends. -/
def pyStrip (s : String) : String :=
  ⟨((s.data.dropWhile isSpaceChar).reverse.dropWhile isSpaceChar).reverse⟩

/-- `str.strip(chars)`: drop any of the given characters from both ends. -/
def pyStripChars (chars : List Char) (s : String) : String :=
  ⟨((s.data.dropWhile (chars.contains ·)).reverse.dropWhile (chars.contains ·)).reverse⟩

/-- Helper for `pySplitCh`: accumulates the current field (reversed). -/
def pySplitChAux (sep : Char) : List Char → List Char → List String
  | [], acc => [⟨acc.reverse⟩]
  | c :: rest, acc =>
    if c = sep then ⟨acc.reverse⟩ :: pySplitChAux sep rest []
    else pySplitChAux sep rest (c :: acc)

/-- Python `str.split(sep)` for a one-character separator: splits on every
occurrence, keeping empty fields (`"".split('/') == ['']`). -/
def pySplitCh (sep : Char) (s : String) : List String :=
  pySplitChAux sep s.data []

/-- Python substring containment (`needle in haystack`) on char lists. -/
def containsSub (pat : List Char) : List Char → Bool
  | [] => pat.isEmpty
  | c :: rest => pat.isPrefixOf (c :: rest) || containsSub pat rest

/-- Numeric value of an ASCII digit. -/
def digitVal (c : Char) : Nat := c.toNat - '0'.toNat

/-- Digits possibly separated by single underscores (Python `int()` body),
starting after a first digit already consumed into `acc`. -/
def parsePyDigitsAux : List Char → Nat → Option Nat
  | [], acc => some acc
  | '_' :: c :: rest, acc =>
    if c.isDigit then parsePyDigitsAux rest (acc * 10 + digitVal c) else none
  | c :: rest, acc =>
    if c.isDigit then parsePyDigitsAux rest (acc * 10 + digitVal c) else none

/-- The digit part of Python `int()`: nonempty, starts and ends with a digit,
single underscores allowed between digits. -/
def parsePyDigits : List Char → Option Nat
  | [] => none
  | c :: rest => if c.isDigit then parsePyDigitsAux rest (digitVal c) else none

/-- Python `int(s)`: strips whitespace, then an optional sign and digits.
`none` models the `ValueError` that the scraper catches (or not). -/
def parsePyInt (s : String) : Option Int :=
  match (pyStrip s).data with
  | '+' :: rest => (parsePyDigits rest).map Int.ofNat
  | '-' :: rest => (parsePyDigits rest).map (fun n => -(Int.ofNat n))
  | cs => (parsePyDigits cs).map Int.ofNat

/-- Python `list(range(a, b))` over integers. -/
def pyRange (a b : Int) : List Int :=
  (List.range (b - a).toNat).map (fun i => a + (i : Int))

/-- One step of Python `str.title()`: uppercase a letter that follows a
non-letter, lowercase other letters, keep non-letters. -/
def titleChar (prevAlpha : Bool) (c : Char) : Char :=
  if c.isAlpha then (if prevAlpha then c.toLower else c.toUpper) else c

/-- Helper for `pyTitle`, threading whether the previous char was a letter. -/
def pyTitleAux (prevAlpha : Bool) : List Char → List Char
  | [] => []
  | c :: rest => titleChar prevAlpha c :: pyTitleAux c.isAlpha rest

/-- Python `str.title()` (ASCII letters, which is all the slugs contain). -/
def pyTitle (s : String) : String := ⟨pyTitleAux false s.data⟩

/-- `str.replace("-", " ")` as used on team slugs. -/
def dashToSpace (s : String) : String :=
  s.map (fun c => if c = '-' then ' ' else c)

/-! ## The two name regexes and the school regex -/

/-- The tail `\s*(.+)` of the roster-name regex, with Python backtracking:
`\s*` greedily eats whitespace but gives characters back so that `.+`
(which cannot match a newline) can take at least one character.  Returns
the text captured by `(.+)`. -/
def sStarDotPlus : List Char → Option (List Char)
  | [] => none
  | c :: rest =>
    if isSpaceChar c then
      match sStarDotPlus rest with
      | some g => some g
      | none => if c = '\n' then none else some ((c :: rest).takeWhile (· ≠ '\n'))
    else
      some ((c :: rest).takeWhile (· ≠ '\n'))

/-- `re.match(r"#\d+\s+([^,]+),\s*(.+)", raw)` from `get_team_roster`:
a leading rank token is mandatory.  Returns `(last, first)` on a match.
`[^,]+` runs to the first comma; `\s+` keeps at least one character and
yields whitespace back to `[^,]+` only when it would otherwise be empty. -/
def rosterRegexMatch (raw : String) : Option (String × String) :=
  match raw.data with
  | '#' :: rest =>
    let ds := rest.takeWhile Char.isDigit
    let r2 := rest.dropWhile Char.isDigit
    if ds.isEmpty then none
    else
      let wlen := (r2.takeWhile isSpaceChar).length
      if wlen = 0 then none
      else
        let pre := r2.takeWhile (· ≠ ',')
        let afterPre := r2.dropWhile (· ≠ ',')
        match afterPre with
        | ',' :: r5 =>
          let j := pre.length
          if j < 2 then none
          else
            let w := min wlen (j - 1)
            match sStarDotPlus r5 with
            | some first => some (⟨(r2.drop w).take (j - w)⟩, ⟨first⟩)
            | none => none
        | _ => none
  | _ => none

/-- Roster display-name normalisation (`get_team_roster` lines 161-170):
on a regex match produce `"First Last"`, otherwise fall back to the raw
text unchanged. -/
def rosterName (raw : String) : String :=
  match rosterRegexMatch raw with
  | some (last, first) => pyStrip first ++ " " ++ pyStrip last
  | none => raw

/-- `re.sub(r"^#\d+\s*", "", s)`: strip one leading rank token if present. -/
def stripRank (s : String) : String :=
  match s.data with
  | '#' :: rest =>
    let ds := rest.takeWhile Char.isDigit
    if ds.isEmpty then s
    else ⟨(rest.dropWhile Char.isDigit).dropWhile isSpaceChar⟩
  | _ => s

/-- Opponent-name normalisation (`scrape_wrestler_matches` lines 259-264):
strip a leading rank, then if a comma is present split at the first comma
and emit `"First Last"` (both parts stripped); otherwise keep as is. -/
def cleanOpponentName (raw : String) : String :=
  let n := stripRank raw
  if n.data.contains ',' then
    let last := pyStrip ⟨n.data.takeWhile (· ≠ ',')⟩
    let first := pyStrip ⟨(n.data.dropWhile (· ≠ ',')).drop 1⟩
    first ++ " " ++ last
  else n

/-- `re.sub(r"\(.*?\)|#\d+\s*", "", s)` from the opponent-school cleanup:
scan left to right; remove a lazy parenthetical (shortest `(...)` with no
newline inside) or a rank token, else keep the character. -/
def cleanSchoolAux : List Char → Nat → List Char
  | l, 0 => l
  | [], _ + 1 => []
  | c :: rest, fuel + 1 =>
    if c = '(' then
      let pre := rest.takeWhile (· ≠ ')')
      if pre.contains '\n' || (rest.dropWhile (· ≠ ')')).isEmpty then
        c :: cleanSchoolAux rest fuel
      else cleanSchoolAux ((rest.dropWhile (· ≠ ')')).drop 1) fuel
    else if c = '#' then
      let ds := rest.takeWhile Char.isDigit
      if ds.isEmpty then c :: cleanSchoolAux rest fuel
      else cleanSchoolAux ((rest.dropWhile Char.isDigit).dropWhile isSpaceChar) fuel
    else c :: cleanSchoolAux rest fuel

/-- Entry point of the school cleanup scan.  The fuel starts at the input
length and every step consumes at least one character, so the
`fuel = 0` fallback is reached only on the empty list, which it maps to
itself: the fuel is bookkeeping for structural recursion, not semantics. -/
def cleanSchoolSub (l : List Char) : List Char := cleanSchoolAux l l.length

/-- `h2.text.strip().split(' ')[0]`: the season label is the stripped
heading text up to the first space. -/
def seasonFromHeading (t : String) : String :=
  ⟨(pyStrip t).data.takeWhile (· ≠ ' ')⟩

/-! ## Data model: documents, matches, errors, the web environment -/

/-- The exceptions the scraper can hit; which one matters only for
faithfulness of the raise sites, all are caught (or not) alike. -/
inductive Err where
  | indexError
  | valueError
  | attributeError
  | keyError
  | navError
deriving DecidableEq, Repr

/-- An `<a>` element: `href` is `none` when the attribute is absent
(accessing it then raises `KeyError`). -/
structure Anchor where
  href : Option String
  text : String
deriving DecidableEq, Repr

/-- A `<td>` cell: its text, its `<a>` children in document order, and the
text of its first `<small>` child if any. -/
structure Cell where
  text : String
  anchors : List Anchor
  small : Option String
deriving DecidableEq, Repr

/-- The cell produced by an out-of-range index; only ever used under a
length guard that makes it unreachable. -/
def defaultCell : Cell := { text := "", anchors := [], small := none }

/-- The roster `<table>`: `tbody` is `none` when `find('tbody')` returns
`None` (then `.find_all('tr')` raises `AttributeError`).  Each row is its
list of `<td>` cells. -/
structure RosterTable where
  tbody : Option (List (List Cell))
deriving DecidableEq, Repr

/-- A team profile page: the roster table selected by
`div#roster table.table...`, or `none` when absent. -/
structure RosterDoc where
  table : Option RosterTable
deriving DecidableEq, Repr

/-- The sibling `div.row` of a season heading: its match `<table>` rows
(`find_all("tr")`, each row its `<td>` cells), or `none` when the div has
no `table.table`. -/
structure TableDiv where
  table : Option (List (List Cell))
deriving DecidableEq, Repr

/-- One `div.row.mt-1` season block of a wrestler page: the `<h2>` heading
text if present, and the next sibling `div.row` if present. -/
structure SeasonBlock where
  h2 : Option String
  sibling : Option TableDiv
deriving DecidableEq, Repr

/-- A wrestler profile page: its season blocks in document order. -/
structure MatchDoc where
  blocks : List SeasonBlock
deriving DecidableEq, Repr

/-- One normalized bout record (a row of the scraper's DataFrame). -/
structure Match where
  season : String
  date : String
  event : String
  weightClass : String
  result : String
  resultType : String
  score : String
  opponent : String
  opponentId : Int
  opponentRecord : String
  opponentSchool : String
  wrestler : String
  wrestlerId : Int
deriving DecidableEq, Repr

/-- A team-level row: a match with the denormalized "Wrestler School"
column stamped on. -/
structure TeamRow where
  base : Match
  wrestlerSchool : String
deriving DecidableEq, Repr

/-- One `to_csv` call: destination path and the rows written. -/
structure Write where
  path : String
  rows : List TeamRow
deriving DecidableEq, Repr

/-- The external web, as the scraper observes it.  `rankings` is the list
of hrefs of `td a` anchors on the rankings page; the two fetches model
`page.goto` + parse for a team profile (by id, slug, season) and a
wrestler profile (by id, slug), with `Except.error` standing for a raised
navigation/timeout error. -/
structure Web where
  rankings : List String
  rosterFetch : Int → String → Int → Except Err RosterDoc
  wrestlerFetch : Int → String → Except Err MatchDoc

/-! ## Generic dedup (pandas `drop_duplicates`, Python `list(set(..))`) -/

/-- First-occurrence deduplication: the order-preserving semantics of
pandas `DataFrame.drop_duplicates()`.  Python's `list(set(xs))` has the
same membership and duplicate-freeness; its iteration order is
unspecified, and nothing downstream depends on it. -/
def dedupFirstAux {α : Type} [DecidableEq α] (seen : List α) : List α → List α
  | [] => []
  | a :: l =>
    if a ∈ seen then dedupFirstAux seen l
    else a :: dedupFirstAux (a :: seen) l

/-- First-occurrence deduplication, entry point. -/
def dedupFirst {α : Type} [DecidableEq α] (l : List α) : List α :=
  dedupFirstAux [] l

/-- `df.drop_duplicates()` on a match dataset. -/
def dropDuplicates (l : List Match) : List Match := dedupFirst l

/-- `list(set(teams))` in `get_all_d1_teams`. -/
def pySetDedup (l : List (Int × String)) : List (Int × String) := dedupFirst l

/-! ## get_all_d1_teams -/

/-- The per-link loop of `get_all_d1_teams`: for each href containing
`"/profile"`, `team_id = int(parts[2])`, `team_slug = parts[3]` where
`parts = href.split('/')`; an out-of-range index or non-numeric id raises
out of the whole function. -/
def teamsFrom : List String → Except Err (List (Int × String))
  | [] => .ok []
  | h :: rest =>
    if containsSub "/profile".data h.data then
      match (pySplitCh '/' h).get? 2 with
      | none => .error .indexError
      | some p2 =>
        match parsePyInt p2 with
        | none => .error .valueError
        | some tid =>
          match (pySplitCh '/' h).get? 3 with
          | none => .error .indexError
          | some slug => (teamsFrom rest).map (fun ts => (tid, slug) :: ts)
    else teamsFrom rest

/-- `get_all_d1_teams`: select `td a[href^="/team/"]` anchors, parse each
profile link, and return `list(set(teams))`. -/
def get_all_d1_teams (rankings : List String) : Except Err (List (Int × String)) :=
  (teamsFrom (rankings.filter (fun h => "/team/".data.isPrefixOf h.data))).map pySetDedup

/-! ## get_team_roster -/

/-- The wrapped (`try`-protected) part of a roster row: parse id and slug
from the profile href (past-season or current format), and normalise the
display name.  `none` models a caught exception (row skipped). -/
def rosterTryParse (a : Anchor) : Option (Int × String × String) :=
  match a.href with
  | none => none
  | some url =>
    let parts := pySplitCh '/' (pyStripChars ['/'] url)
    let wname := rosterName (pyStrip a.text)
    if parts.contains "season" then
      match parts.get? 3 with
      | none => none
      | some p3 =>
        match parsePyInt p3 with
        | none => none
        | some wid =>
          match parts.get? 4 with
          | none => none
          | some p4 => some (wid, wname, p4)
    else
      match parts.get? 1 with
      | none => none
      | some p1 =>
        match parsePyInt p1 with
        | none => none
        | some wid =>
          match parts.get? 2 with
          | none => none
          | some p2 => some (wid, wname, p2)

/-- One roster row: skip a row with no `<td>`; `cols[1]` on a one-cell row
raises `IndexError` outside the `try`; skip a row whose second cell has no
`<a href=...>`; otherwise run the protected parse. -/
def rosterRowStep (row : List Cell) : Except Err (Option (Int × String × String)) :=
  if row.isEmpty then .ok none
  else
    match row.get? 1 with
    | none => .error .indexError
    | some c1 =>
      match c1.anchors.find? (fun a => a.href.isSome) with
      | none => .ok none
      | some a => .ok (rosterTryParse a)

/-- The roster row loop: an uncaught error aborts the whole roster. -/
def rosterRows : List (List Cell) → Except Err (List (Int × String × String))
  | [] => .ok []
  | r :: rs => do
    let o ← rosterRowStep r
    let rest ← rosterRows rs
    pure (match o with | some e => e :: rest | none => rest)

/-- `get_team_roster` given the parsed team page: no table means an empty
roster; a table without `tbody` raises; otherwise parse `rows[1:]`. -/
def get_team_roster (doc : RosterDoc) : Except Err (List (Int × String × String)) :=
  match doc.table with
  | none => .ok []
  | some t =>
    match t.tbody with
    | none => .error .attributeError
    | some rows => rosterRows (rows.drop 1)

/-! ## scrape_wrestler_matches -/

/-- The stripped text of `cols[i]`. -/
def cellText (row : List Cell) (i : Nat) : String :=
  pyStrip ((row.get? i).getD defaultCell).text

/-- Parse one match-table row under a season label (lines 242-283 of
`scraper.py`), without the per-row season filter: skip rows without
exactly 9 `<td>`, rows whose second cell has no `<a>`, and rows where the
`try` block raises (no href, bad index, non-numeric opponent id). -/
def parseMatchRow (season wname : String) (wid : Int) (row : List Cell) : Option Match :=
  if row.length = 9 then
    let c1 := (row.get? 1).getD defaultCell
    match c1.anchors.head? with
    | none => none
    | some a =>
      let opponentRaw := pyStrip a.text
      match a.href with
      | none => none
      | some url =>
        match (pySplitCh '/' (pyStripChars ['/'] url)).get? 1 with
        | none => none
        | some seg =>
          match parsePyInt seg with
          | none => none
          | some oid =>
            let record :=
              match c1.small with
              | some s => pyStripChars [' ', '(', ')'] s
              | none => "Unlisted"
            let school := pyStrip ⟨cleanSchoolSub (cellText row 2).data⟩
            some
              { season := season
                date := cellText row 3
                event := cellText row 4
                weightClass := cellText row 5
                result := cellText row 6
                resultType := cellText row 7
                score := cellText row 8
                opponent := cleanOpponentName opponentRaw
                opponentId := oid
                opponentRecord := record
                opponentSchool := school
                wrestler := wname
                wrestlerId := wid }
  else none

/-- The rows of one season block, season filter applied per row exactly as
in the source (`if match["Season"] != str(season_year): continue`). -/
def blockMatches (wname : String) (wid sy : Int) (b : SeasonBlock) : List Match :=
  match b.h2 with
  | none => []
  | some h =>
    let season := seasonFromHeading h
    match b.sibling with
    | none => []
    | some td =>
      match td.table with
      | none => []
      | some rows =>
        rows.filterMap (fun r =>
          match parseMatchRow season wname wid r with
          | some m => if m.season = toString sy then some m else none
          | none => none)

/-- The rows of one season block with no season filter (every row fully
parsed); used to state that the season check is a final filter. -/
def blockMatchesAll (wname : String) (wid : Int) (b : SeasonBlock) : List Match :=
  match b.h2 with
  | none => []
  | some h =>
    let season := seasonFromHeading h
    match b.sibling with
    | none => []
    | some td =>
      match td.table with
      | none => []
      | some rows => rows.filterMap (parseMatchRow season wname wid)

/-- Every parsed match of the document, unfiltered. -/
def allParsedMatches (doc : MatchDoc) (wname : String) (wid : Int) : List Match :=
  doc.blocks.flatMap (blockMatchesAll wname wid)

/-- `df.replace("", pd.NA); df.dropna()`: drop any row with an empty
string in any (string) field. -/
def hasEmptyField (m : Match) : Bool :=
  m.season = "" || m.date = "" || m.event = "" || m.weightClass = "" ||
  m.result = "" || m.resultType = "" || m.score = "" || m.opponent = "" ||
  m.opponentRecord = "" || m.opponentSchool = "" || m.wrestler = ""

/-- Keep only rows with every field non-empty. -/
def dropEmptyRows (l : List Match) : List Match :=
  l.filter (fun m => ¬ hasEmptyField m)

/-- The pure body of `scrape_wrestler_matches` on a parsed wrestler page:
collect per-block season-filtered rows, then `drop_duplicates`, then drop
rows with empty fields. -/
def processWrestlerDoc (doc : MatchDoc) (wname : String) (wid sy : Int) : List Match :=
  dropEmptyRows (dropDuplicates (doc.blocks.flatMap (blockMatches wname wid sy)))

/-- `scrape_wrestler_matches`: fetch the wrestler page (a raised
navigation error propagates to the caller) and process it. -/
def scrape_wrestler_matches (web : Web) (wid : Int) (wname wslug : String) (sy : Int) :
    Except Err (List Match) :=
  (web.wrestlerFetch wid wslug).map (fun doc => processWrestlerDoc doc wname wid sy)

/-! ## scrape_team_matches -/

/-- Stamp the denormalized `"Wrestler School"` column onto a wrestler's
match rows. -/
def stampSchool (school : String) (ms : List Match) : List TeamRow :=
  ms.map (fun m => { base := m, wrestlerSchool := school })

/-- `pd.concat(dfs, ignore_index=True)`: plain order-preserving
concatenation of the collected datasets. -/
def aggregateMatches (dfs : List (List TeamRow)) : List TeamRow := dfs.flatten

/-- The per-wrestler loop of `scrape_team_matches`: there is no
`try`/`except` here, so an error raised for one wrestler aborts the loop
(and the whole team) at once; nonempty results are stamped with the team
school and kept, empty ones skipped. -/
def collectWrestlers (web : Web) (team_slug : String) (sy : Int) :
    List (Int × String × String) → Except Err (List (List TeamRow))
  | [] => .ok []
  | (wid, wname, wslug) :: rest => do
    let df ← scrape_wrestler_matches web wid wname wslug sy
    let tail ← collectWrestlers web team_slug sy rest
    if df.isEmpty then pure tail
    else pure (stampSchool (pyTitle (dashToSpace team_slug)) df :: tail)

/-- Destination of the per-team CSV:
`Team Results/{slug title}/{season}_{slug}.csv`. -/
def teamCsvPath (team_slug : String) (sy : Int) : String :=
  "Team Results/" ++ (pyTitle (dashToSpace team_slug) ++ ("/" ++ (toString sy ++ ("_" ++ (team_slug ++ ".csv")))))

/-- `scrape_team_matches`: roster fetch and parse, the per-wrestler loop,
then either `None` (nothing collected, nothing written) or the
concatenated team dataset (which the source also writes to CSV). -/
def scrape_team_matches (web : Web) (team_id : Int) (team_slug : String) (sy : Int) :
    Except Err (Option (List TeamRow)) := do
  let rdoc ← web.rosterFetch team_id team_slug sy
  let roster ← get_team_roster rdoc
  let dfs ← collectWrestlers web team_slug sy roster
  if dfs.isEmpty then pure none else pure (some (aggregateMatches dfs))

/-! ## scrape_all_d1_teams -/

/-- Teams appended to the live rankings because they left D1 before the
current snapshot (lines 404-410). -/
def static_teams : List (Int × String) :=
  [(9, "boston-u"), (8, "boise-state"), (25, "eastern-michigan"),
   (58, "old-dominion"), (829, "fresno-state")]

/-- `teams += [...]`: the live list with the static corrections appended
(plain list concatenation, no dedup). -/
def crawlTeams (live : List (Int × String)) : List (Int × String) :=
  live ++ static_teams

/-- The activity-window correction table (lines 413-430). -/
def activity_map : List (String × List Int) :=
  [("little-rock", pyRange 2020 2027),
   ("liu", pyRange 2020 2027),
   ("presbyterian", pyRange 2020 2027),
   ("cal-baptist", pyRange 2023 2027),
   ("morgan-state", pyRange 2024 2027),
   ("bellarmine", pyRange 2025 2027),
   ("boston-u", pyRange 2014 2015),
   ("boise-state", pyRange 2014 2018),
   ("eastern-michigan", pyRange 2014 2019),
   ("old-dominion", pyRange 2014 2021),
   ("fresno-state", pyRange 2018 2022)]

/-- Dictionary lookup `activity_map[team_slug]` (`None` when absent). -/
def activityLookup (slug : String) : Option (List Int) :=
  (activity_map.find? (fun p => p.1 == slug)).map (fun p => p.2)

/-- The crawl guard: skip iff
`team_slug in activity_map and season_year not in activity_map[team_slug]`. -/
def teamActive (slug : String) (sy : Int) : Bool :=
  match activityLookup slug with
  | some seasons => seasons.contains sy
  | none => true

/-- What the orchestrator does with a (non-skipped) team scrape: a raised
error is caught and logged (no contribution); `None` contributes nothing;
a dataset was already written by `scrape_team_matches` and is kept when
non-empty. -/
def handleScrape (team_slug : String) (sy : Int)
    (r : Except Err (Option (List TeamRow))) : Option (List TeamRow) × List Write :=
  match r with
  | .error _ => (none, [])
  | .ok none => (none, [])
  | .ok (some df) =>
    (if df.isEmpty then none else some df, [{ path := teamCsvPath team_slug sy, rows := df }])

/-- One team of the season loop: the activity-window skip, then the
`try`-wrapped team scrape. -/
def processTeam (web : Web) (sy : Int) (t : Int × String) :
    Option (List TeamRow) × List Write :=
  if teamActive t.2 sy then handleScrape t.2 sy (scrape_team_matches web t.1 t.2 sy)
  else (none, [])

/-- The team loop of one season: contributions to `season_data` in team
order, plus every CSV write performed along the way. -/
def seasonRun (web : Web) (sy : Int) : List (Int × String) → List (List TeamRow) × List Write
  | [] => ([], [])
  | t :: ts =>
    let r := processTeam web sy t
    let rest := seasonRun web sy ts
    ((match r.1 with | some df => df :: rest.1 | none => rest.1), r.2 ++ rest.2)

/-- Destination of the per-season CSV: `Year Results/{season}_matches.csv`. -/
def seasonCsvPath (sy : Int) : String :=
  "Year Results/" ++ (toString sy ++ "_matches.csv")

/-- One full season: the team loop, then the season CSV written only when
`season_data` is non-empty. -/
def runSeason (web : Web) (teams : List (Int × String)) (sy : Int) :
    List (List TeamRow) × List Write :=
  let r := seasonRun web sy teams
  (r.1, r.2 ++ (if r.1.isEmpty then [] else [{ path := seasonCsvPath sy, rows := aggregateMatches r.1 }]))

/-- The season loop: `all_data` accumulates the very datasets appended to
each `season_data`, in season order. -/
def runAllSeasons (web : Web) (teams : List (Int × String)) :
    List Int → List (List TeamRow) × List Write
  | [] => ([], [])
  | sy :: rest =>
    let r := runSeason web teams sy
    let tail := runAllSeasons web teams rest
    (r.1 ++ tail.1, r.2 ++ tail.2)

/-- `range(2014, 2027)`: the seasons crawled. -/
def seasonYears : List Int := pyRange 2014 2027

/-- Destination of the full-history CSV. -/
def fullCsvPath : String := "d1_all_match_results.csv"

/-- `scrape_all_d1_teams`, modelled by the writes it performs: resolve the
team list (an error here is uncaught), run every season, then write the
full-history dataset only when `all_data` is non-empty. -/
def scrape_all_d1_teams (web : Web) : Except Err (List Write) := do
  let live ← get_all_d1_teams web.rankings
  let r := runAllSeasons web (crawlTeams live) seasonYears
  pure (r.2 ++ (if r.1.isEmpty then [] else [{ path := fullCsvPath, rows := aggregateMatches r.1 }]))

/-! ## Concrete documents and webs for the examples -/

/-- A simple text-only cell. -/
def textCell (t : String) : Cell := { text := t, anchors := [], small := none }

/-- The opponent link of the example match row. -/
def exAnchorOpp : Anchor :=
  { href := some "/wrestler/99/doe-john/profile", text := "Doe, John" }

/-- A well-formed 9-column match row: opponent "Doe, John" (id 99, no
record listed), school "Iowa", date/event/weight/result/type/score. -/
def exMatchRow : List Cell :=
  [textCell "1",
   { text := "Doe, John", anchors := [exAnchorOpp], small := none },
   textCell "Iowa",
   textCell "1/1/2024",
   textCell "Dual",
   textCell "125",
   textCell "W",
   textCell "Dec",
   textCell "5-2"]

/-- The match `exMatchRow` parses to for wrestler "Alpha" (id 1). -/
def exMatch : Match :=
  { season := "2024", date := "1/1/2024", event := "Dual", weightClass := "125",
    result := "W", resultType := "Dec", score := "5-2", opponent := "John Doe",
    opponentId := 99, opponentRecord := "Unlisted", opponentSchool := "Iowa",
    wrestler := "Alpha", wrestlerId := 1 }

/-- A wrestler page with one season block, headed "2024 Season", holding
one well-formed 9-column match row. -/
def exMatchDoc : MatchDoc :=
  { blocks := [{ h2 := some "2024 Season", sibling := some { table := some [exMatchRow] } }] }

/-- A roster row whose profile link is `/wrestler/{i}/{slug}/profile` and
whose display text is `nm`. -/
def mkRosterRow (i : Int) (nm slug : String) : List Cell :=
  [textCell "HWT",
   { text := nm,
     anchors := [{ href := some ("/wrestler/" ++ (toString i ++ ("/" ++ (slug ++ "/profile")))), text := nm }],
     small := none }]

/-- A roster page: a header row followed by the wrestlers Alpha, Bravo,
Carlos. -/
def cbRosterDoc : RosterDoc :=
  { table := some
      { tbody :=
          some [[], mkRosterRow 1 "Alpha" "alpha", mkRosterRow 2 "Bravo" "bravo",
                mkRosterRow 3 "Carlos" "carlos"] } }

/-- A web where the roster lists Alpha, Bravo, Carlos; Alpha's and
Carlos's pages are fine (one 2024 match each) but fetching Bravo's page
raises a navigation error. -/
def cbWeb : Web :=
  { rankings := [],
    rosterFetch := fun _ _ _ => .ok cbRosterDoc,
    wrestlerFetch := fun wid _ => if wid = 2 then .error .navError else .ok exMatchDoc }

/-- A web where every page exists but is empty: no roster table, no season
blocks, an empty rankings page. -/
def okWeb : Web :=
  { rankings := [],
    rosterFetch := fun _ _ _ => .ok { table := none },
    wrestlerFetch := fun _ _ => .ok { blocks := [] } }

/-- A roster page whose only wrestler row carries the unranked display
text "Starocci, Carter". -/
def c4RosterRow : List Cell :=
  [textCell "174",
   { text := "Starocci, Carter",
     anchors := [{ href := some "/wrestler/7/starocci-carter/profile",
                   text := "Starocci, Carter" }],
     small := none }]

def c4RosterDoc : RosterDoc :=
  { table := some { tbody := some [[], c4RosterRow] } }

/-- A distinct team-level row for the aggregation example. -/
def exRow (i : Int) : TeamRow :=
  { base := { exMatch with wrestlerId := i }, wrestlerSchool := "Penn State" }

/-- Five rows for the first per-wrestler dataset of the example. -/
def exFive : List TeamRow := [exRow 1, exRow 2, exRow 3, exRow 4, exRow 5]

/-- Three rows for the last per-wrestler dataset of the example. -/
def exThree : List TeamRow := [exRow 6, exRow 7, exRow 8]

/-! ## Helper lemmas -/

theorem dedupFirstAux_subset {α : Type} [DecidableEq α] {x : α} :
    ∀ (seen l : List α), x ∈ dedupFirstAux seen l → x ∈ l := by
  intro seen l
  induction l generalizing seen with
  | nil => intro h; simp [dedupFirstAux] at h
  | cons a l ih =>
    intro h
    by_cases ha : a ∈ seen
    · rw [dedupFirstAux, if_pos ha] at h
      exact List.mem_cons_of_mem a (ih _ h)
    · rw [dedupFirstAux, if_neg ha] at h
      rcases List.mem_cons.mp h with h1 | h1
      · exact h1 ▸ List.mem_cons_self a l
      · exact List.mem_cons_of_mem a (ih _ h1)

theorem dedupFirstAux_not_seen {α : Type} [DecidableEq α] {x : α} :
    ∀ (seen l : List α), x ∈ dedupFirstAux seen l → x ∉ seen := by
  intro seen l
  induction l generalizing seen with
  | nil => intro h; simp [dedupFirstAux] at h
  | cons a l ih =>
    intro h
    by_cases ha : a ∈ seen
    · rw [dedupFirstAux, if_pos ha] at h
      exact ih _ h
    · rw [dedupFirstAux, if_neg ha] at h
      rcases List.mem_cons.mp h with h1 | h1
      · exact h1 ▸ ha
      · intro hx
        exact ih _ h1 (List.mem_cons_of_mem a hx)

theorem dedupFirstAux_nodup {α : Type} [DecidableEq α] :
    ∀ (seen l : List α), (dedupFirstAux seen l).Nodup := by
  intro seen l
  induction l generalizing seen with
  | nil => simp [dedupFirstAux]
  | cons a l ih =>
    by_cases ha : a ∈ seen
    · rw [dedupFirstAux, if_pos ha]; exact ih seen
    · rw [dedupFirstAux, if_neg ha]
      refine List.nodup_cons.mpr ⟨?_, ih _⟩
      intro hmem
      exact dedupFirstAux_not_seen _ _ hmem (List.mem_cons_self a seen)

theorem dedupFirstAux_eq_self {α : Type} [DecidableEq α] :
    ∀ (seen l : List α), l.Nodup → (∀ x ∈ l, x ∉ seen) → dedupFirstAux seen l = l := by
  intro seen l
  induction l generalizing seen with
  | nil => intro _ _; rfl
  | cons a l ih =>
    intro hn hd
    have ha : a ∉ seen := hd a (List.mem_cons_self a l)
    rw [dedupFirstAux, if_neg ha]
    congr 1
    refine ih _ (List.nodup_cons.mp hn).2 ?_
    intro x hx hmem
    rcases List.mem_cons.mp hmem with h1 | h1
    · exact (List.nodup_cons.mp hn).1 (h1 ▸ hx)
    · exact hd x (List.mem_cons_of_mem a hx) h1

theorem dedupFirst_subset {α : Type} [DecidableEq α] {x : α} {l : List α}
    (h : x ∈ dedupFirst l) : x ∈ l :=
  dedupFirstAux_subset [] l h

theorem dedupFirst_nodup {α : Type} [DecidableEq α] (l : List α) :
    (dedupFirst l).Nodup :=
  dedupFirstAux_nodup [] l

theorem dedupFirst_idem {α : Type} [DecidableEq α] (l : List α) :
    dedupFirst (dedupFirst l) = dedupFirst l :=
  dedupFirstAux_eq_self [] (dedupFirst l) (dedupFirst_nodup l)
    (fun x _ hx => List.not_mem_nil x hx)

theorem blockMatches_eq_filter (wname : String) (wid sy : Int) (b : SeasonBlock) :
    blockMatches wname wid sy b =
      (blockMatchesAll wname wid b).filter (fun m => m.season = toString sy) := by
  rcases b with ⟨h2, sib⟩
  cases h2 with
  | none => rfl
  | some h =>
    cases sib with
    | none => rfl
    | some td =>
      rcases td with ⟨tbl⟩
      cases tbl with
      | none => rfl
      | some rows =>
        simp only [blockMatches, blockMatchesAll]
        rw [List.filter_filterMap]
        congr 1
        funext r
        cases parseMatchRow (seasonFromHeading h) wname wid r with
        | none => rfl
        | some m =>
          by_cases hs : m.season = toString sy <;> simp [Option.filter, hs]

theorem flatMap_blockMatches (bs : List SeasonBlock) (wname : String) (wid sy : Int) :
    bs.flatMap (blockMatches wname wid sy) =
      (bs.flatMap (blockMatchesAll wname wid)).filter (fun m => m.season = toString sy) := by
  induction bs with
  | nil => rfl
  | cons b bs ih =>
    simp only [List.flatMap_cons, List.filter_append, ih, blockMatches_eq_filter]

theorem processWrestlerDoc_eq_filter (doc : MatchDoc) (wname : String) (wid sy : Int) :
    processWrestlerDoc doc wname wid sy =
      dropEmptyRows (dropDuplicates
        ((allParsedMatches doc wname wid).filter (fun m => m.season = toString sy))) := by
  rw [processWrestlerDoc, flatMap_blockMatches]
  rfl

theorem mem_processWrestlerDoc {doc : MatchDoc} {wname : String} {wid sy : Int} {m : Match}
    (h : m ∈ processWrestlerDoc doc wname wid sy) :
    hasEmptyField m = false ∧ m.season = toString sy := by
  rw [processWrestlerDoc_eq_filter] at h
  rw [dropEmptyRows] at h
  have h1 := List.mem_filter.mp h
  have h2 := dedupFirst_subset h1.1
  have h3 := List.mem_filter.mp h2
  refine ⟨?_, of_decide_eq_true h3.2⟩
  have := h1.2
  simpa using this

theorem teamCsvPath_ne_full (s : String) (sy : Int) : teamCsvPath s sy ≠ fullCsvPath := by
  intro h
  have h2 := congrArg String.data h
  rw [teamCsvPath, fullCsvPath, String.data_append] at h2
  rw [show ("Team Results/").data = 'T' :: ("eam Results/").data from rfl] at h2
  rw [show ("d1_all_match_results.csv").data = 'd' :: ("1_all_match_results.csv").data from rfl] at h2
  rw [List.cons_append] at h2
  injection h2 with hc _
  exact absurd hc (by decide)

theorem seasonCsvPath_ne_full (sy : Int) : seasonCsvPath sy ≠ fullCsvPath := by
  intro h
  have h2 := congrArg String.data h
  rw [seasonCsvPath, fullCsvPath, String.data_append] at h2
  rw [show ("Year Results/").data = 'Y' :: ("ear Results/").data from rfl] at h2
  rw [show ("d1_all_match_results.csv").data = 'd' :: ("1_all_match_results.csv").data from rfl] at h2
  rw [List.cons_append] at h2
  injection h2 with hc _
  exact absurd hc (by decide)

theorem handleScrape_write_path {slug : String} {sy : Int}
    {r : Except Err (Option (List TeamRow))} {w : Write}
    (hw : w ∈ (handleScrape slug sy r).2) : w.path = teamCsvPath slug sy := by
  rcases r with e | o
  · simp [handleScrape] at hw
  · rcases o with _ | df
    · simp [handleScrape] at hw
    · rw [handleScrape] at hw
      have : w = { path := teamCsvPath slug sy, rows := df } := by
        simpa using hw
      rw [this]

theorem processTeam_write_path {web : Web} {sy : Int} {t : Int × String} {w : Write}
    (hw : w ∈ (processTeam web sy t).2) : w.path = teamCsvPath t.2 sy := by
  rw [processTeam] at hw
  by_cases ha : teamActive t.2 sy
  · rw [if_pos ha] at hw
    exact handleScrape_write_path hw
  · rw [if_neg ha] at hw
    simp at hw

theorem seasonRun_no_full (web : Web) (sy : Int) :
    ∀ (ts : List (Int × String)) (w : Write), w ∈ (seasonRun web sy ts).2 →
      w.path ≠ fullCsvPath := by
  intro ts
  induction ts with
  | nil => intro w hw; simp [seasonRun] at hw
  | cons t ts ih =>
    intro w hw
    rw [seasonRun] at hw
    rcases List.mem_append.mp hw with h1 | h1
    · exact (processTeam_write_path h1) ▸ teamCsvPath_ne_full t.2 sy
    · exact ih w h1

theorem runSeason_no_full (web : Web) (teams : List (Int × String)) (sy : Int) :
    ∀ w ∈ (runSeason web teams sy).2, w.path ≠ fullCsvPath := by
  intro w hw
  rw [runSeason] at hw
  rcases List.mem_append.mp hw with h1 | h1
  · exact seasonRun_no_full web sy teams w h1
  · by_cases he : (seasonRun web sy teams).1.isEmpty
    · rw [if_pos he] at h1; simp at h1
    · rw [if_neg he] at h1
      have : w = { path := seasonCsvPath sy, rows := aggregateMatches (seasonRun web sy teams).1 } := by
        simpa using h1
      exact this ▸ seasonCsvPath_ne_full sy

theorem runAllSeasons_no_full (web : Web) (teams : List (Int × String)) :
    ∀ (sys : List Int) (w : Write), w ∈ (runAllSeasons web teams sys).2 →
      w.path ≠ fullCsvPath := by
  intro sys
  induction sys with
  | nil => intro w hw; simp [runAllSeasons] at hw
  | cons sy sys ih =>
    intro w hw
    rw [runAllSeasons] at hw
    rcases List.mem_append.mp hw with h1 | h1
    · exact runSeason_no_full web teams sy w h1
    · exact ih w h1

/-! ## Claim theorems -/

/-- Claim C1: the per-wrestler loop of `scrape_team_matches` has no
exception isolation.  On `cbWeb` the roster is Alpha, Bravo, Carlos;
Alpha's page yields one 2024 match, fetching Bravo's page raises, and
Carlos's page would also yield a match — yet the team scrape aborts with
Bravo's error, the remaining sibling (Carlos) is never visited, Alpha's
already-collected match is discarded, and the organization contributes
nothing (the error is only caught at the organization level). -/
theorem C1_wrestler_failure_aborts_team :
    scrape_wrestler_matches cbWeb 1 "Alpha" "alpha" 2024 = .ok [exMatch] ∧
    scrape_wrestler_matches cbWeb 3 "Carlos" "carlos" 2024 = .ok [{ exMatch with wrestler := "Carlos", wrestlerId := 3 }] ∧
    scrape_team_matches cbWeb 60 "penn-state" 2024 = .error .navError ∧
    processTeam cbWeb 2024 (60, "penn-state") = (none, []) :=
  ⟨rfl, rfl, rfl, rfl⟩

/-- Claim C2: every row of a completed match-history extraction has a
non-empty value in every (string) field: rows with any empty field after
normalization are dropped from the output entirely. -/
theorem C2_no_empty_fields (web : Web) (wid : Int) (wname wslug : String) (sy : Int)
    (ms : List Match) (m : Match)
    (hok : scrape_wrestler_matches web wid wname wslug sy = .ok ms) (hm : m ∈ ms) :
    m.season ≠ "" ∧ m.date ≠ "" ∧ m.event ≠ "" ∧ m.weightClass ≠ "" ∧
    m.result ≠ "" ∧ m.resultType ≠ "" ∧ m.score ≠ "" ∧ m.opponent ≠ "" ∧
    m.opponentRecord ≠ "" ∧ m.opponentSchool ≠ "" ∧ m.wrestler ≠ "" := by
  rw [scrape_wrestler_matches] at hok
  cases hfetch : web.wrestlerFetch wid wslug with
  | error e => rw [hfetch] at hok; exact absurd hok (by simp [Except.map])
  | ok doc =>
    rw [hfetch] at hok
    have hms : ms = processWrestlerDoc doc wname wid sy := by
      have := hok
      simp [Except.map] at this
      exact this.symm
    subst hms
    have hempty := (mem_processWrestlerDoc hm).1
    rw [hasEmptyField] at hempty
    simp only [Bool.or_eq_false_iff, decide_eq_false_iff_not] at hempty
    tauto

/-- Claim C2 witness: the example wrestler page yields exactly `exMatch`,
whose fields are all non-empty. -/
theorem C2_no_empty_fields_witness :
    exMatch.season ≠ "" ∧ exMatch.date ≠ "" ∧ exMatch.event ≠ "" ∧
    exMatch.weightClass ≠ "" ∧ exMatch.result ≠ "" ∧ exMatch.resultType ≠ "" ∧
    exMatch.score ≠ "" ∧ exMatch.opponent ≠ "" ∧ exMatch.opponentRecord ≠ "" ∧
    exMatch.opponentSchool ≠ "" ∧ exMatch.wrestler ≠ "" :=
  C2_no_empty_fields cbWeb 1 "Alpha" "alpha" 2024 [exMatch] exMatch rfl
    (List.mem_singleton.mpr rfl)

/-- Claim C3: with a target season given, every returned row's `Season`
equals the requested season; the season check is a final per-row filter
over fully parsed rows (the output equals filtering the unfiltered parse
`allParsedMatches`); and the `"2024 Season"` block example yields exactly
one match with season `"2024"` when 2024 is requested and no rows when
2023 is requested. -/
theorem C3_season_filter (doc : MatchDoc) (wname : String) (wid sy : Int) (m : Match)
    (hm : m ∈ processWrestlerDoc doc wname wid sy) :
    m.season = toString sy ∧
    processWrestlerDoc doc wname wid sy =
      dropEmptyRows (dropDuplicates
        ((allParsedMatches doc wname wid).filter (fun x => x.season = toString sy))) ∧
    processWrestlerDoc exMatchDoc "Alpha" 1 2024 = [exMatch] ∧
    processWrestlerDoc exMatchDoc "Alpha" 1 2023 = [] :=
  ⟨(mem_processWrestlerDoc hm).2, processWrestlerDoc_eq_filter doc wname wid sy,
   by decide, by decide⟩

/-- Claim C3 witness: instantiated on the example document at season 2024
with its single produced match. -/
theorem C3_season_filter_witness :
    exMatch.season = toString (2024 : Int) ∧
    processWrestlerDoc exMatchDoc "Alpha" 1 2024 =
      dropEmptyRows (dropDuplicates
        ((allParsedMatches exMatchDoc "Alpha" 1).filter (fun x => x.season = toString (2024 : Int)))) ∧
    processWrestlerDoc exMatchDoc "Alpha" 1 2024 = [exMatch] ∧
    processWrestlerDoc exMatchDoc "Alpha" 1 2023 = [] :=
  C3_season_filter exMatchDoc "Alpha" 1 2024 exMatch (by decide)

/-- Claim C4 counterexample: the roster extractor's normalizer does not
normalise a rankless `"Last, First"` name: the roster row with display
text `"Starocci, Carter"` is extracted with its name unchanged, not as
`"Carter Starocci"` (the regex `#\d+\s+([^,]+),\s*(.+)` requires a
leading rank token). -/
theorem C4_rankless_name_not_normalized :
    get_team_roster c4RosterDoc = .ok [(7, "Starocci, Carter", "starocci-carter")] ∧
    rosterName "Starocci, Carter" = "Starocci, Carter" ∧
    "Starocci, Carter" ≠ "Carter Starocci" :=
  ⟨rfl, rfl, by decide⟩

/-- Claim C4 (amended): the match extractor's normalizer converts
`"Last, First"` to `"First Last"` with or without a leading rank token and
passes comma-less names through (after rank stripping); the roster
extractor's normalizer does so only when a leading rank token is present,
and otherwise — including for plain `"Last, First"` — falls back to the
raw text unchanged. -/
theorem C4_name_normalizers (s : String) :
    (rosterRegexMatch s = none → rosterName s = s) ∧
    ((stripRank s).data.contains ',' = false → cleanOpponentName s = stripRank s) ∧
    rosterName "#3 Starocci, Carter" = "Carter Starocci" ∧
    rosterName "Starocci, Carter" = "Starocci, Carter" ∧
    cleanOpponentName "#3 Starocci, Carter" = "Carter Starocci" ∧
    cleanOpponentName "Starocci, Carter" = "Carter Starocci" ∧
    rosterName "Smith" = "Smith" ∧
    cleanOpponentName "Smith" = "Smith" := by
  refine ⟨?_, ?_, by decide, by decide, by decide, by decide, by decide, by decide⟩
  · intro h
    rw [rosterName, h]
  · intro h
    rw [cleanOpponentName]
    simp only [h]
    simp

/-- Claim C4 witness: the fallbacks instantiated at `"Bravo"`. -/
theorem C4_name_normalizers_witness :
    rosterName "Bravo" = "Bravo" ∧ cleanOpponentName "Bravo" = stripRank "Bravo" :=
  ⟨(C4_name_normalizers "Bravo").1 rfl, (C4_name_normalizers "Bravo").2.1 (by decide)⟩

/-- Claim C5: an organization whose slug is in the activity-window table
with the target season absent from its allowed set is skipped and
contributes nothing (no dataset, no write); a slug absent from the table
always proceeds to the scrape; and consequently filtering a team list to
the active teams leaves the season run unchanged. -/
theorem C5_activity_window (web : Web) (sy tid : Int) (slug : String) :
    (∀ L, activityLookup slug = some L → sy ∉ L →
       processTeam web sy (tid, slug) = (none, [])) ∧
    (activityLookup slug = none →
       processTeam web sy (tid, slug) =
         handleScrape slug sy (scrape_team_matches web tid slug sy)) ∧
    (∀ teams : List (Int × String),
       seasonRun web sy (teams.filter (fun t => teamActive t.2 sy)) =
         seasonRun web sy teams) := by
  refine ⟨?_, ?_, ?_⟩
  · intro L hL hmem
    have hact : teamActive slug sy = false := by
      rw [teamActive, hL]
      rw [Bool.eq_false_iff]
      intro hc
      exact hmem (List.mem_of_elem_eq_true hc)
    rw [processTeam]
    simp only [hact]
    simp
  · intro h
    rw [processTeam]
    simp only [teamActive, h]
    simp
  · intro teams
    induction teams with
    | nil => rfl
    | cons t ts ih =>
      by_cases ht : teamActive t.2 sy
      · rw [List.filter_cons_of_pos (by simpa using ht)]
        rw [seasonRun, seasonRun, ih]
      · rw [List.filter_cons_of_neg (by simpa using ht)]
        rw [ih]
        have hskip : processTeam web sy t = (none, []) := by
          rw [processTeam, if_neg (by simpa using ht)]
        conv_rhs => rw [seasonRun]
        rw [hskip]
        simp

/-- Claim C5 witness: Boston U left D1 after 2014, so for season 2016 it
is skipped outright. -/
theorem C5_activity_window_witness :
    processTeam okWeb 2016 (9, "boston-u") = (none, []) :=
  (C5_activity_window okWeb 2016 9 "boston-u").1 (pyRange 2014 2015) rfl (by decide)

/-- Claim C6: aggregation is plain order-preserving concatenation; empty
per-wrestler datasets contribute no rows (skipping them does not change
the aggregate), and the 5/0/3 example yields exactly the 5 rows followed
by the 3 rows, 8 in total. -/
theorem C6_aggregation_concat (dfs : List (List TeamRow)) :
    aggregateMatches (dfs.filter (fun d => !d.isEmpty)) = aggregateMatches dfs ∧
    aggregateMatches [exFive, [], exThree] = exFive ++ exThree ∧
    (aggregateMatches [exFive, [], exThree]).length = 8 := by
  refine ⟨?_, by decide, by decide⟩
  induction dfs with
  | nil => rfl
  | cons d ds ih =>
    cases d with
    | nil => simpa [aggregateMatches] using ih
    | cons x xs =>
      simp only [aggregateMatches, List.filter_cons, List.isEmpty_cons] at ih ⊢
      simp [ih]

/-- Claim C9 counterexample: the live rankings list is deduplicated, but
the static legacy list is appended with `+=`, not unioned: a rankings
page that still links Boston U produces the pair `(9, "boston-u")` twice
in the team list handed to the crawl loop. -/
theorem C9_static_append_duplicates :
    get_all_d1_teams ["/team/9/boston-u/profile"] = .ok [(9, "boston-u")] ∧
    (crawlTeams [(9, "boston-u")]).count (9, "boston-u") = 2 :=
  ⟨rfl, by decide⟩

/-- Claim C9 (amended): the live-queried links are deduplicated by exact
(ID, slug) identity, so the live set is duplicate-free; appending the
static correction list preserves duplicate-freeness only under the
assumption that no static legacy pair occurs in the live set. -/
theorem C9_dedup_and_append (doc : List String) (teams live : List (Int × String))
    (hok : get_all_d1_teams doc = .ok teams)
    (hdisj : ∀ t ∈ static_teams, t ∉ live) (hl : live.Nodup) :
    teams.Nodup ∧ (crawlTeams live).Nodup := by
  constructor
  · rw [get_all_d1_teams] at hok
    cases hf : teamsFrom (doc.filter (fun h => "/team/".data.isPrefixOf h.data)) with
    | error e => rw [hf] at hok; exact absurd hok (by simp [Except.map])
    | ok l =>
      rw [hf] at hok
      have : teams = pySetDedup l := by
        have := hok
        simp [Except.map] at this
        exact this.symm
      rw [this, pySetDedup]
      exact dedupFirst_nodup l
  · refine List.Nodup.append hl (by decide) ?_
    intro a ha hb
    exact hdisj a hb ha

/-- Claim C9 witness: with an empty rankings page the live set is empty
and the combined list (the static teams alone) is duplicate-free. -/
theorem C9_dedup_and_append_witness :
    ([] : List (Int × String)).Nodup ∧ (crawlTeams []).Nodup :=
  C9_dedup_and_append [] [] [] rfl (by simp) List.nodup_nil

/-- Claim C10: the first row of the roster table body is dropped
unconditionally (`rows[1:]`): the result depends only on the remaining
rows, a table whose only row is a fully valid wrestler row yields an
empty roster, and the same valid row is parsed when any row precedes it. -/
theorem C10_first_roster_row_skipped :
    (∀ (r0 : List Cell) (rest : List (List Cell)),
        get_team_roster { table := some { tbody := some (r0 :: rest) } } =
          rosterRows rest) ∧
    get_team_roster { table := some { tbody := some [mkRosterRow 1 "Alpha" "alpha"] } } =
      .ok [] ∧
    get_team_roster { table := some { tbody := some [[], mkRosterRow 1 "Alpha" "alpha"] } } =
      .ok [(1, "Alpha", "alpha")] :=
  ⟨fun _ _ => rfl, rfl, rfl⟩

/-- Claim C8: deduplication (`drop_duplicates`) is idempotent, and a
completed extraction pass has collapsed records identical across all
fields: its output contains no duplicate rows. -/
theorem C8_dedup_idempotent (l : List Match) (web : Web) (wid : Int)
    (wname wslug : String) (sy : Int) (ms : List Match)
    (hok : scrape_wrestler_matches web wid wname wslug sy = .ok ms) :
    dropDuplicates (dropDuplicates l) = dropDuplicates l ∧ ms.Nodup := by
  constructor
  · exact dedupFirst_idem l
  · rw [scrape_wrestler_matches] at hok
    cases hfetch : web.wrestlerFetch wid wslug with
    | error e => rw [hfetch] at hok; exact absurd hok (by simp [Except.map])
    | ok doc =>
      rw [hfetch] at hok
      have hms : ms = processWrestlerDoc doc wname wid sy := by
        have := hok
        simp [Except.map] at this
        exact this.symm
      subst hms
      rw [processWrestlerDoc, dropEmptyRows]
      exact List.Nodup.filter _ (dedupFirst_nodup _)

/-- Claim C8 witness: instantiated on the empty dataset and the example
extraction, whose one-row output is duplicate-free. -/
theorem C8_dedup_idempotent_witness :
    dropDuplicates (dropDuplicates []) = dropDuplicates [] ∧
    ([exMatch] : List Match).Nodup :=
  C8_dedup_idempotent [] cbWeb 1 "Alpha" "alpha" 2024 [exMatch] rfl

/-- Claim C7: a team scrape whose per-wrestler loop collects nothing
returns `None` (and the orchestrator then records no dataset and no
write); across a whole run, the full-history file is written exactly once
if `all_data` is non-empty and not at all otherwise — no other write of
the run targets its path. -/
theorem C7_nothing_to_persist (web : Web) (tid : Int) (slug : String) (sy : Int)
    (rdoc : RosterDoc) (roster : List (Int × String × String))
    (live : List (Int × String)) (ws : List Write)
    (h1 : web.rosterFetch tid slug sy = .ok rdoc)
    (h2 : get_team_roster rdoc = .ok roster)
    (h3 : collectWrestlers web slug sy roster = .ok [])
    (h4 : get_all_d1_teams web.rankings = .ok live)
    (h5 : scrape_all_d1_teams web = .ok ws) :
    scrape_team_matches web tid slug sy = .ok none ∧
    handleScrape slug sy (Except.ok none) = (none, []) ∧
    (ws.filter (fun w => w.path = fullCsvPath)).length =
      (if (runAllSeasons web (crawlTeams live) seasonYears).1.isEmpty then 0 else 1) := by
  refine ⟨?_, rfl, ?_⟩
  · rw [scrape_team_matches]
    simp [h1, h2, h3, Except.bind, bind, pure, Except.pure]
  · have hws : ws =
        (runAllSeasons web (crawlTeams live) seasonYears).2 ++
          (if (runAllSeasons web (crawlTeams live) seasonYears).1.isEmpty then []
           else [{ path := fullCsvPath,
                   rows := aggregateMatches (runAllSeasons web (crawlTeams live) seasonYears).1 }]) := by
      have h6 := h5
      rw [scrape_all_d1_teams] at h6
      rw [h4] at h6
      simp only [Except.bind, bind, pure, Except.pure] at h6
      injection h6 with h7
      exact h7.symm
    rw [hws, List.filter_append]
    have hnil : (((runAllSeasons web (crawlTeams live) seasonYears).2).filter
        (fun w => w.path = fullCsvPath)) = [] := by
      rw [List.filter_eq_nil_iff]
      intro w hw
      simpa using runAllSeasons_no_full web (crawlTeams live) seasonYears w hw
    rw [hnil, List.nil_append]
    by_cases he : (runAllSeasons web (crawlTeams live) seasonYears).1.isEmpty
    · rw [if_pos he, if_pos he]
      rfl
    · rw [if_neg he, if_neg he]
      simp

/-- Claim C7 witness: on the all-empty web every team collects nothing,
the example team scrape returns `None` with no write, and no full-history
file is written. -/
theorem C7_nothing_to_persist_witness :
    scrape_team_matches okWeb 9 "boston-u" 2014 = .ok none ∧
    handleScrape "boston-u" 2014 (Except.ok none) = (none, []) ∧
    (([] : List Write).filter (fun w => w.path = fullCsvPath)).length =
      (if (runAllSeasons okWeb (crawlTeams []) seasonYears).1.isEmpty then 0 else 1) :=
  C7_nothing_to_persist okWeb 9 "boston-u" 2014 { table := none } [] [] []
    rfl rfl rfl rfl rfl
